import Mathlib

/-!
Verification of `torch/ao/quantization/quantizer/utils.py`.

The fragment is a thin utility layer over an external graph framework.  We
shallowly embed the fragment's own logic:

* graph nodes are identified by natural numbers;
* a node's `meta` dictionary is modelled by a record `NodeMeta` holding the
  optional `"quantization_annotation"` entry together with an abstract field
  `other` standing for every other key of the dictionary;
* a Python `dict` used as `input_qspec_map` is modelled by an association
  list with first-occurrence update semantics (`dictInsert` / `dictLookup`);
* the external predicate `_is_sym_size_node` and the external tensor
  operations (`conv_fn`, `F.batch_norm`, the activation functions) are
  abstract parameters, exactly as the fragment treats them;
* the fallible external calls of `_generate_pattern_matcher_helper` are
  `Except`-valued parameters;
* the `functools.lru_cache(None)` memoization of the eight
  `_generate_conv2d_*_pattern_matcher` accessors is modelled by an explicit
  cache state with an allocation counter standing for Python object identity.
-/

namespace QuantizerUtils

/-- Python `dict` assignment `d[k] = v` on an association list: the first
entry with key `k` is updated in place, otherwise the new entry is appended
at the end. -/
def dictInsert {Q : Type} (k : Nat) (v : Q) : List (Nat × Q) → List (Nat × Q)
  | [] => [(k, v)]
  | (k', v') :: rest =>
      if k' = k then (k, v) :: rest else (k', v') :: dictInsert k v rest

/-- Python `dict` lookup `d[k]` on an association list: value of the first
entry with key `k`. -/
def dictLookup {Q : Type} (k : Nat) : List (Nat × Q) → Option Q
  | [] => none
  | (k', v') :: rest => if k' = k then some v' else dictLookup k rest

/-- Number of entries stored under key `k`. -/
def dictCountKey {Q : Type} (k : Nat) : List (Nat × Q) → Nat
  | [] => 0
  | (k', _) :: rest => (if k' = k then 1 else 0) + dictCountKey k rest

/-- Modelled from the spec: the ` QuantizationAnnotation` record comes from the
external quantizer module (`torch.ao.quantization.quantizer.quantizer`, not
part of this fragment).  Per the spec it is a metadata record holding the
input quantization-spec mapping and the output quantization spec; the
fragment's `is None` check shows both fields are optional and absent in a
freshly constructed record. -/
structure QuantizationAnnotation (Q : Type) where
  input_qspec_map : Option (List (Nat × Q))
  output_qspec : Option Q
deriving DecidableEq

/-- Source ` QuantizationAnnotation()`: fresh record, both fields absent. -/
def QuantizationAnnotation.empty (Q : Type) : QuantizationAnnotation Q :=
  ⟨none, none⟩

/-- A node's `meta` dictionary: the optional `"quantization_annotation"`
entry, plus all other keys (abstract, untouched by this fragment). -/
structure NodeMeta (Q O : Type) where
  quantization_annotation : Option ( QuantizationAnnotation Q)
  other : O
deriving DecidableEq

/-- The metadata state of the whole graph: each node's `meta` dictionary. -/
def GraphMeta (Q O : Type) : Type := Nat → NodeMeta Q O

/-- The annotation record `node.meta.get("quantization_annotation",
QuantizationAnnotation())` read on node `n`. -/
def annotationOf {Q O : Type} (st : GraphMeta Q O) (n : Nat) :
    QuantizationAnnotation Q :=
  ( NodeMeta.quantization_annotation (st n)).getD ( QuantizationAnnotation.empty Q)

/-- The effective input-qspec mapping stored on node `n` (empty when the
field is `None` or the annotation is absent). -/
def inMapOf {Q O : Type} (st : GraphMeta Q O) (n : Nat) : List (Nat × Q) :=
  ( QuantizationAnnotation.input_qspec_map (annotationOf st n)).getD []

/-- The output qspec stored on node `n` (absent when no annotation). -/
def outSpecOf {Q O : Type} (st : GraphMeta Q O) (n : Nat) : Option Q :=
  QuantizationAnnotation.output_qspec (annotationOf st n)

/-- Source `_annotate_input_qspec_map(node, input_node, qspec)`: get or create the
node's annotation, create the input map if it is `None`, store
`input_qspec_map[input_node] = qspec`, and write the record back under the
`"quantization_annotation"` key of `node.meta`. -/
def _annotate_input_qspec_map {Q O : Type} (st : GraphMeta Q O)
    (node input_node : Nat) (qspec : Q) : GraphMeta Q O :=
  let qa := annotationOf st node
  let m := ( QuantizationAnnotation.input_qspec_map qa).getD []
  fun k =>
    if k = node then
      ⟨some ⟨some (dictInsert input_node qspec m),
             QuantizationAnnotation.output_qspec qa⟩,
       NodeMeta.other (st node)⟩
    else st k

/-- Source `_annotate_output_qspec(node, qspec)`: get or create the node's
annotation, overwrite its `output_qspec` field with `qspec`, and write the
record back under the `"quantization_annotation"` key of `node.meta`. -/
def _annotate_output_qspec {Q O : Type} (st : GraphMeta Q O)
    (node : Nat) (qspec : Q) : GraphMeta Q O :=
  let qa := annotationOf st node
  fun k =>
    if k = node then
      ⟨some ⟨ QuantizationAnnotation.input_qspec_map qa, some qspec⟩,
       NodeMeta.other (st node)⟩
    else st k

/-- Source `_node_only_used_for_sym_size(node, partition_nodes)`.  The external
predicate `_is_sym_size_node` and the `users` successor relation are
abstract parameters.  The source returns `True` immediately when the node
itself is a sym-size node, and otherwise checks every user. -/
def _node_only_used_for_sym_size (is_sym_size : Nat → Bool)
    (users : Nat → List Nat) (node : Nat) (partition_nodes : List Nat) :
    Bool :=
  if is_sym_size node then
    true
  else
    (users node).all fun user =>
      (!(decide (user ∈ partition_nodes))) || is_sym_size user

/-- The inner template `_conv_unary` produced by `_get_conv_unary_pattern`:
apply `conv_fn` to `(x, conv_weight, conv_bias)`, apply `F.batch_norm` when
`has_bn`, apply `unary_fn` when present, and return the final value together
with the name map.  `batch_norm` abstracts the external
`F.batch_norm(conv, bn_rm, bn_rv, bn_weight, bn_bias, training=True)` call
(arguments in that order). -/
def _conv_unary {α : Type} (conv_fn : α → α → α → α) (has_bn : Bool)
    (unary_fn : Option (α → α)) (batch_norm : α → α → α → α → α → α)
    (x conv_weight conv_bias bn_weight bn_bias bn_rm bn_rv : α) :
    α × List (String × α) :=
  let conv := conv_fn x conv_weight conv_bias
  let bn := if has_bn then batch_norm conv bn_rm bn_rv bn_weight bn_bias else conv
  let unary := match unary_fn with
    | some f => f bn
    | none => bn
  let output := unary
  (output,
    [("input", x), ("conv", conv), ("conv_weight", conv_weight),
     ("conv_bias", conv_bias), ("bn", bn), ("unary", unary),
     ("output", output)])

/-- Source `_get_conv_unary_pattern(conv_fn, has_bn, unary_fn)` returns the template
closure `_conv_unary`. -/
def _get_conv_unary_pattern {α : Type} (conv_fn : α → α → α → α)
    (has_bn : Bool) (unary_fn : Option (α → α))
    (batch_norm : α → α → α → α → α → α) :
    α → α → α → α → α → α → α → α × List (String × α) :=
  _conv_unary conv_fn has_bn unary_fn batch_norm

/-- Source `_generate_pattern_matcher_helper(pattern, example_inputs)`.  The external
calls — `get_aten_graph_module`, `pattern.graph.eliminate_dead_code()`,
`pattern.recompile()` and the `SubgraphMatcherWithNameNodeMap` constructor —
may each fail; the source wraps none of them in a handler, so they are
`Except`-valued parameters sequenced in source order. -/
def _generate_pattern_matcher_helper {P I G M E : Type}
    (get_aten_graph_module : P → I → Except E G)
    (eliminate_dead_code : G → Except E G)
    (recompile : G → Except E G)
    (subgraph_matcher_with_name_node_map : G → Except E M)
    (pat : P) (example_inputs : I) : Except E M :=
  match get_aten_graph_module pat example_inputs with
  | Except.error e => Except.error e
  | Except.ok g =>
    match eliminate_dead_code g with
    | Except.error e => Except.error e
    | Except.ok g2 =>
      match recompile g2 with
      | Except.error e => Except.error e
      | Except.ok g3 => subgraph_matcher_with_name_node_map g3

/-- The eight `_generate_conv2d_*_pattern_matcher` accessors, one per
activation-function variant. -/
inductive ConvVariant : Type
  | plain
  | bn
  | relu
  | inplace_relu
  | hardtanh
  | inplace_hardtanh
  | relu6
  | inplace_relu6
deriving DecidableEq

/-- Modelled from the spec: the process-lifetime state of the
`functools.lru_cache(None)` caches of the eight accessors (the decorator is
library code outside this fragment; the spec describes it as a
lazily-computed singleton per variant).  `cache v` is the object cached for
accessor `v` (object identity modelled by an allocation id), `constructions
v` counts how often the underlying matcher construction ran for `v`, and
`nextId` is the allocator for fresh object ids. -/
structure MatcherCacheState where
  cache : ConvVariant → Option Nat
  constructions : ConvVariant → Nat
  nextId : Nat

/-- Process start: all caches empty, no constructions yet. -/
def initMatcherState : MatcherCacheState :=
  ⟨fun _ => none, fun _ => 0, 0⟩

/-- One invocation of the accessor for variant `v`: on a cache hit return the
cached object and leave the state untouched; on a miss run the construction
(allocating a fresh object), store it, and return it. -/
def generate_conv2d_pattern_matcher (v : ConvVariant)
    (s : MatcherCacheState) : Nat × MatcherCacheState :=
  match MatcherCacheState.cache s v with
  | some o => (o, s)
  | none =>
      (MatcherCacheState.nextId s,
       ⟨fun w => if w = v then some (MatcherCacheState.nextId s)
                 else MatcherCacheState.cache s w,
        fun w => if w = v then MatcherCacheState.constructions s w + 1
                 else MatcherCacheState.constructions s w,
        MatcherCacheState.nextId s + 1⟩)

/-- Run a sequence of accessor invocations from a given state. -/
def runMatcherCalls : List ConvVariant → MatcherCacheState → MatcherCacheState
  | [], s => s
  | v :: vs, s => runMatcherCalls vs (generate_conv2d_pattern_matcher v s).2

/-! ### Association-list dictionary lemmas -/

theorem dictLookup_dictInsert_self {Q : Type} (k : Nat) (v : Q)
    (l : List (Nat × Q)) : dictLookup k (dictInsert k v l) = some v := by
  induction l with
  | nil => simp [dictInsert, dictLookup]
  | cons p rest ih =>
      obtain ⟨k', v'⟩ := p
      by_cases h : k' = k
      · simp [dictInsert, dictLookup, h]
      · simp [dictInsert, dictLookup, h, ih]

theorem dictLookup_dictInsert_ne {Q : Type} (k k' : Nat) (v : Q)
    (l : List (Nat × Q)) (h : k ≠ k') :
    dictLookup k (dictInsert k' v l) = dictLookup k l := by
  induction l with
  | nil => simp [dictInsert, dictLookup, Ne.symm h]
  | cons p rest ih =>
      obtain ⟨a, b⟩ := p
      by_cases ha : a = k'
      · simp [dictInsert, dictLookup, ha, Ne.symm h]
      · simp [dictInsert, dictLookup, ha, ih]

theorem dictCountKey_dictInsert_self {Q : Type} (k : Nat) (v : Q)
    (l : List (Nat × Q)) (h : dictCountKey k l ≤ 1) :
    dictCountKey k (dictInsert k v l) = 1 := by
  induction l with
  | nil => simp [dictCountKey, dictInsert]
  | cons p rest ih =>
      obtain ⟨a, b⟩ := p
      by_cases ha : a = k
      · simp [dictCountKey, dictInsert, ha] at h ⊢
        omega
      · simp [dictCountKey, dictInsert, ha] at h ⊢
        exact ih h

/-! ### Effect of the annotation helpers on the read-back state -/

theorem inMapOf_annotate_input {Q O : Type} (st : GraphMeta Q O)
    (n i : Nat) (q : Q) :
    inMapOf (_annotate_input_qspec_map st n i q) n
      = dictInsert i q (inMapOf st n) := by
  simp [inMapOf, annotationOf, _annotate_input_qspec_map]

theorem outSpecOf_annotate_input {Q O : Type} (st : GraphMeta Q O)
    (n i : Nat) (q : Q) :
    outSpecOf (_annotate_input_qspec_map st n i q) n = outSpecOf st n := by
  simp [outSpecOf, annotationOf, _annotate_input_qspec_map]

theorem outSpecOf_annotate_output {Q O : Type} (st : GraphMeta Q O)
    (n : Nat) (q : Q) :
    outSpecOf (_annotate_output_qspec st n q) n = some q := by
  simp [outSpecOf, annotationOf, _annotate_output_qspec]

theorem inMapField_annotate_output {Q O : Type} (st : GraphMeta Q O)
    (n : Nat) (q : Q) :
    QuantizationAnnotation.input_qspec_map
        (annotationOf (_annotate_output_qspec st n q) n)
      = QuantizationAnnotation.input_qspec_map (annotationOf st n) := by
  simp [annotationOf, _annotate_output_qspec]

/-- A concrete two-node graph state with no metadata anywhere, used by the
witnesses. -/
def emptyGraphState : GraphMeta Nat Unit := fun _ => ⟨none, ()⟩

/-- Claim C2: annotating a node with input specs for two distinct input
nodes `i1` and `i2` in sequence leaves an input-qspec map containing both
entries: `i1 ↦ q1` and `i2 ↦ q2`. -/
theorem annotate_input_qspec_map_accumulates {Q O : Type}
    (st : GraphMeta Q O) (n i1 i2 : Nat) (q1 q2 : Q) (h : i1 ≠ i2) :
    dictLookup i1 (inMapOf
        (_annotate_input_qspec_map
          (_annotate_input_qspec_map st n i1 q1) n i2 q2) n) = some q1 ∧
    dictLookup i2 (inMapOf
        (_annotate_input_qspec_map
          (_annotate_input_qspec_map st n i1 q1) n i2 q2) n) = some q2 := by
  rw [inMapOf_annotate_input, inMapOf_annotate_input]
  exact ⟨by rw [dictLookup_dictInsert_ne _ _ _ _ h, dictLookup_dictInsert_self],
         dictLookup_dictInsert_self _ _ _⟩

/-- Witness for C2 at a concrete input. -/
theorem annotate_input_qspec_map_accumulates_witness :
    (1 : Nat) ≠ 2 ∧
    (dictLookup 1 (inMapOf
        (_annotate_input_qspec_map
          (_annotate_input_qspec_map emptyGraphState 0 1 10) 0 2 20) 0)
        = some 10 ∧
     dictLookup 2 (inMapOf
        (_annotate_input_qspec_map
          (_annotate_input_qspec_map emptyGraphState 0 1 10) 0 2 20) 0)
        = some 20) :=
  ⟨by decide,
   annotate_input_qspec_map_accumulates emptyGraphState 0 1 2 10 20 (by decide)⟩

/-- Claim C3: annotating a node's output spec twice leaves `output_qspec`
equal to the second spec, regardless of any previously stored output spec. -/
theorem annotate_output_qspec_overwrites {Q O : Type} (st : GraphMeta Q O)
    (n : Nat) (q1 q2 : Q) :
    outSpecOf (_annotate_output_qspec (_annotate_output_qspec st n q1) n q2) n
      = some q2 :=
  outSpecOf_annotate_output _ n q2

/-- Claim C6: on a node with no `"quantization_annotation"` metadata entry,
each annotation helper stores a fresh record under that key with only the
corresponding field set: `_annotate_input_qspec_map` yields a record whose
input map holds exactly the new entry and whose output spec is absent, and
`_annotate_output_qspec` yields a record with no input map and the given
output spec. -/
theorem annotate_creates_fresh_record {Q O : Type} (st : GraphMeta Q O)
    (n i : Nat) (q q' : Q)
    (h : NodeMeta.quantization_annotation (st n) = none) :
    (_annotate_input_qspec_map st n i q) n
        = ⟨some ⟨some [(i, q)], none⟩, NodeMeta.other (st n)⟩ ∧
    (_annotate_output_qspec st n q') n
        = ⟨some ⟨none, some q'⟩, NodeMeta.other (st n)⟩ := by
  constructor
  · simp [_annotate_input_qspec_map, annotationOf, h,
      QuantizationAnnotation.empty, dictInsert]
  · simp [_annotate_output_qspec, annotationOf, h,
      QuantizationAnnotation.empty]

/-- Witness for C6 at a concrete input. -/
theorem annotate_creates_fresh_record_witness :
    NodeMeta.quantization_annotation (emptyGraphState 0) = none ∧
    ((_annotate_input_qspec_map emptyGraphState 0 1 10) 0
        = ⟨some ⟨some [(1, 10)], none⟩, NodeMeta.other (emptyGraphState 0)⟩ ∧
     (_annotate_output_qspec emptyGraphState 0 20) 0
        = ⟨some ⟨none, some 20⟩, NodeMeta.other (emptyGraphState 0)⟩) :=
  ⟨rfl, annotate_creates_fresh_record emptyGraphState 0 1 10 20 rfl⟩

/-- Claim C9 (frame property): `_annotate_input_qspec_map` and
`_annotate_output_qspec` touch only the metadata of the node they are given —
every other node's metadata is untouched; on the annotated node itself
`_annotate_input_qspec_map` preserves the output spec,
`_annotate_output_qspec` preserves the input-qspec-map field with all its
entries, and both preserve every other metadata key. -/
theorem annotate_frame {Q O : Type} (st : GraphMeta Q O) (n i : Nat)
    (q q' : Q) (m : Nat) (h : m ≠ n) :
    (_annotate_input_qspec_map st n i q) m = st m ∧
    (_annotate_output_qspec st n q') m = st m ∧
    outSpecOf (_annotate_input_qspec_map st n i q) n = outSpecOf st n ∧
    QuantizationAnnotation.input_qspec_map
        (annotationOf (_annotate_output_qspec st n q') n)
      = QuantizationAnnotation.input_qspec_map (annotationOf st n) ∧
    NodeMeta.other ((_annotate_input_qspec_map st n i q) n)
      = NodeMeta.other (st n) ∧
    NodeMeta.other ((_annotate_output_qspec st n q') n)
      = NodeMeta.other (st n) := by
  refine ⟨?_, ?_, outSpecOf_annotate_input st n i q,
    inMapField_annotate_output st n q', ?_, ?_⟩
  · simp [_annotate_input_qspec_map, h]
  · simp [_annotate_output_qspec, h]
  · simp [_annotate_input_qspec_map]
  · simp [_annotate_output_qspec]

/-- Witness for C9 at a concrete input. -/
theorem annotate_frame_witness :
    (1 : Nat) ≠ 0 ∧
    ((_annotate_input_qspec_map emptyGraphState 0 2 10) 1 = emptyGraphState 1 ∧
     (_annotate_output_qspec emptyGraphState 0 20) 1 = emptyGraphState 1 ∧
     outSpecOf (_annotate_input_qspec_map emptyGraphState 0 2 10) 0
        = outSpecOf emptyGraphState 0 ∧
     QuantizationAnnotation.input_qspec_map
        (annotationOf (_annotate_output_qspec emptyGraphState 0 20) 0)
        = QuantizationAnnotation.input_qspec_map (annotationOf emptyGraphState 0) ∧
     NodeMeta.other ((_annotate_input_qspec_map emptyGraphState 0 2 10) 0)
        = NodeMeta.other (emptyGraphState 0) ∧
     NodeMeta.other ((_annotate_output_qspec emptyGraphState 0 20) 0)
        = NodeMeta.other (emptyGraphState 0)) :=
  ⟨by decide, annotate_frame emptyGraphState 0 2 10 20 1 (by decide)⟩

/-- Claim C10: annotating the same node twice with the same input node `i`
(first `q1`, then `q2`) leaves exactly one entry for `i` in the input-qspec
map, mapped to `q2` — last write wins.  The hypothesis that the prior map
holds at most one entry for `i` is the Python `dict` key-uniqueness
invariant. -/
theorem annotate_input_qspec_map_last_write_wins {Q O : Type}
    (st : GraphMeta Q O) (n i : Nat) (q1 q2 : Q)
    (h : dictCountKey i (inMapOf st n) ≤ 1) :
    dictLookup i (inMapOf
        (_annotate_input_qspec_map
          (_annotate_input_qspec_map st n i q1) n i q2) n) = some q2 ∧
    dictCountKey i (inMapOf
        (_annotate_input_qspec_map
          (_annotate_input_qspec_map st n i q1) n i q2) n) = 1 := by
  rw [inMapOf_annotate_input, inMapOf_annotate_input]
  refine ⟨dictLookup_dictInsert_self _ _ _, ?_⟩
  exact dictCountKey_dictInsert_self _ _ _
    (le_of_eq (dictCountKey_dictInsert_self _ _ _ h))

/-- Witness for C10 at a concrete input. -/
theorem annotate_input_qspec_map_last_write_wins_witness :
    dictCountKey 1 (inMapOf emptyGraphState 0) ≤ 1 ∧
    (dictLookup 1 (inMapOf
        (_annotate_input_qspec_map
          (_annotate_input_qspec_map emptyGraphState 0 1 10) 0 1 20) 0)
        = some 20 ∧
     dictCountKey 1 (inMapOf
        (_annotate_input_qspec_map
          (_annotate_input_qspec_map emptyGraphState 0 1 10) 0 1 20) 0) = 1) :=
  ⟨by decide,
   annotate_input_qspec_map_last_write_wins emptyGraphState 0 1 10 20 (by decide)⟩

/-! ### `_node_only_used_for_sym_size` -/

/-- A concrete sym-size predicate for the C1 counterexample: exactly node 0
is a sym-size node. -/
def symSizeOnlyZero : Nat → Bool := fun k => k = 0

/-- A concrete users relation for the C1 counterexample: node 0 has the
single user 1, which is not a sym-size node. -/
def usersOfZero : Nat → List Nat := fun k => if k = 0 then [1] else []

/-- Counterexample to claim C1 as stated: with node 0 itself a sym-size node
whose only user (node 1) lies in the partition and is not a sym-size node,
the source returns `True` through its initial `_is_sym_size_node(node)`
short-circuit, while the claimed condition on the users is false — the
biconditional fails. -/
theorem node_only_used_for_sym_size_claim_false :
    ¬ (_node_only_used_for_sym_size symSizeOnlyZero usersOfZero 0 [1] = true ↔
        ∀ u ∈ usersOfZero 0, u ∉ ([1] : List Nat) ∨ symSizeOnlyZero u = true) := by
  decide

/-- Claim C1 as amended: `_node_only_used_for_sym_size` returns true iff the
node itself is a sym-size node, or every user of the node is outside the
given partition node list or is itself a sym-size node. -/
theorem node_only_used_for_sym_size_spec (is_sym_size : Nat → Bool)
    (users : Nat → List Nat) (node : Nat) (partition_nodes : List Nat) :
    _node_only_used_for_sym_size is_sym_size users node partition_nodes = true ↔
      (is_sym_size node = true ∨
        ∀ u ∈ users node, u ∉ partition_nodes ∨ is_sym_size u = true) := by
  unfold _node_only_used_for_sym_size
  by_cases h : is_sym_size node = true
  · simp [h]
  · simp [h, List.all_eq_true, Decidable.imp_iff_not_or]

/-- Claim C7: the template returned by `_get_conv_unary_pattern` computes
`conv_fn(x, conv_weight, conv_bias)`, applies batch norm to it exactly when
`has_bn` holds, applies `unary_fn` to that exactly when one is supplied, and
returns the final value together with a name map whose keys are exactly
`input, conv, conv_weight, conv_bias, bn, unary, output`. -/
theorem get_conv_unary_pattern_spec {α : Type} (conv_fn : α → α → α → α)
    (has_bn : Bool) (unary_fn : Option (α → α))
    (batch_norm : α → α → α → α → α → α)
    (x conv_weight conv_bias bn_weight bn_bias bn_rm bn_rv : α) :
    (_get_conv_unary_pattern conv_fn has_bn unary_fn batch_norm
        x conv_weight conv_bias bn_weight bn_bias bn_rm bn_rv).1
      = Option.elim unary_fn
          (if has_bn then
            batch_norm (conv_fn x conv_weight conv_bias) bn_rm bn_rv
              bn_weight bn_bias
           else conv_fn x conv_weight conv_bias)
          (fun f => f (if has_bn then
            batch_norm (conv_fn x conv_weight conv_bias) bn_rm bn_rv
              bn_weight bn_bias
           else conv_fn x conv_weight conv_bias)) ∧
    ((_get_conv_unary_pattern conv_fn has_bn unary_fn batch_norm
        x conv_weight conv_bias bn_weight bn_bias bn_rm bn_rv).2).map Prod.fst
      = ["input", "conv", "conv_weight", "conv_bias", "bn", "unary",
         "output"] := by
  cases unary_fn <;> cases has_bn <;>
    simp [_get_conv_unary_pattern, _conv_unary]

/-- Claim C8: `_generate_pattern_matcher_helper` installs no handler — it
returns an error exactly when one of its external calls fails, and then it
returns that error unchanged: the failure of `get_aten_graph_module`, or
(all earlier stages succeeding) of `eliminate_dead_code`, `recompile`, or
the matcher constructor. -/
theorem generate_pattern_matcher_helper_propagates {P I G M E : Type}
    (get_aten_graph_module : P → I → Except E G)
    (eliminate_dead_code : G → Except E G)
    (recompile : G → Except E G)
    (subgraph_matcher_with_name_node_map : G → Except E M)
    (pat : P) (example_inputs : I) (e : E) :
    _generate_pattern_matcher_helper get_aten_graph_module
        eliminate_dead_code recompile subgraph_matcher_with_name_node_map
        pat example_inputs = Except.error e ↔
      (get_aten_graph_module pat example_inputs = Except.error e ∨
        ∃ g, get_aten_graph_module pat example_inputs = Except.ok g ∧
          (eliminate_dead_code g = Except.error e ∨
            ∃ g2, eliminate_dead_code g = Except.ok g2 ∧
              (recompile g2 = Except.error e ∨
                ∃ g3, recompile g2 = Except.ok g3 ∧
                  subgraph_matcher_with_name_node_map g3
                    = Except.error e))) := by
  unfold _generate_pattern_matcher_helper
  cases h1 : get_aten_graph_module pat example_inputs with
  | error e1 => simp [h1]
  | ok g =>
      cases h2 : eliminate_dead_code g with
      | error e2 => simp [h1, h2]
      | ok g2 =>
          cases h3 : recompile g2 with
          | error e3 => simp [h1, h2, h3]
          | ok g3 => simp [h1, h2, h3]

/-! ### Memoization invariants for the cached accessors -/

/-- Counting invariant: the construction for each variant has run at most
once, and not at all while its cache is still empty. -/
def matcherCountOk (s : MatcherCacheState) : Prop :=
  ∀ v, MatcherCacheState.constructions s v ≤ 1 ∧
    (MatcherCacheState.cache s v = none →
      MatcherCacheState.constructions s v = 0)

theorem matcherCountOk_init : matcherCountOk initMatcherState := by
  intro v
  exact ⟨Nat.zero_le 1, fun _ => rfl⟩

theorem matcherCountOk_step (v : ConvVariant) (s : MatcherCacheState)
    (h : matcherCountOk s) :
    matcherCountOk (generate_conv2d_pattern_matcher v s).2 := by
  intro w
  cases hc : MatcherCacheState.cache s v with
  | some o => simpa [generate_conv2d_pattern_matcher, hc] using h w
  | none =>
      by_cases hw : w = v
      · subst hw
        have h0 := (h w).2 hc
        simp [generate_conv2d_pattern_matcher, hc, h0]
      · simpa [generate_conv2d_pattern_matcher, hc, hw] using h w

theorem matcherCountOk_run (l : List ConvVariant) (s : MatcherCacheState)
    (h : matcherCountOk s) : matcherCountOk (runMatcherCalls l s) := by
  induction l generalizing s with
  | nil => exact h
  | cons v vs ih => exact ih _ (matcherCountOk_step v s h)

/-- Identity invariant: every cached object id is below the allocator, and
caches of distinct variants hold distinct object ids. -/
def matcherIdOk (s : MatcherCacheState) : Prop :=
  (∀ v o, MatcherCacheState.cache s v = some o →
    o < MatcherCacheState.nextId s) ∧
  (∀ v w o o', v ≠ w → MatcherCacheState.cache s v = some o →
    MatcherCacheState.cache s w = some o' → o ≠ o')

theorem matcherIdOk_init : matcherIdOk initMatcherState := by
  constructor
  · intro v o hv
    simp [initMatcherState] at hv
  · intro v w o o' hvw hv
    simp [initMatcherState] at hv

theorem matcherIdOk_step (v : ConvVariant) (s : MatcherCacheState)
    (h : matcherIdOk s) :
    matcherIdOk (generate_conv2d_pattern_matcher v s).2 := by
  cases hc : MatcherCacheState.cache s v with
  | some o => simpa [generate_conv2d_pattern_matcher, hc] using h
  | none =>
      constructor
      · intro w o hw
        by_cases hwv : w = v
        · subst hwv
          simp [generate_conv2d_pattern_matcher, hc] at hw ⊢
          omega
        · simp [generate_conv2d_pattern_matcher, hc, hwv] at hw ⊢
          exact Nat.lt_trans (h.1 w o hw) (Nat.lt_succ_self _)
      · intro a b o o' hab ha hb
        by_cases hav : a = v
        · subst hav
          have hbv : ¬ b = a := fun hh => hab hh.symm
          simp [generate_conv2d_pattern_matcher, hc, hbv] at ha hb
          have := h.1 b o' hb
          omega
        · by_cases hbv : b = v
          · subst hbv
            simp [generate_conv2d_pattern_matcher, hc, hav] at ha hb
            have := h.1 a o ha
            omega
          · simp [generate_conv2d_pattern_matcher, hc, hav, hbv] at ha hb
            exact h.2 a b o o' hab ha hb

theorem matcherIdOk_run (l : List ConvVariant) (s : MatcherCacheState)
    (h : matcherIdOk s) : matcherIdOk (runMatcherCalls l s) := by
  induction l generalizing s with
  | nil => exact h
  | cons v vs ih => exact ih _ (matcherIdOk_step v s h)

/-- After an invocation for variant `v`, the cache for `v` holds exactly the
object that invocation returned. -/
theorem generate_cache_self (v : ConvVariant) (s : MatcherCacheState) :
    MatcherCacheState.cache (generate_conv2d_pattern_matcher v s).2 v
      = some (generate_conv2d_pattern_matcher v s).1 := by
  cases hc : MatcherCacheState.cache s v <;>
    simp [generate_conv2d_pattern_matcher, hc]

/-- On a cache hit the invocation returns the cached object. -/
theorem generate_fst_of_hit (w : ConvVariant) (s : MatcherCacheState)
    (o : Nat) (hw : MatcherCacheState.cache s w = some o) :
    (generate_conv2d_pattern_matcher w s).1 = o := by
  simp [generate_conv2d_pattern_matcher, hw]

/-- On a cache miss the invocation returns the freshly allocated object. -/
theorem generate_fst_of_miss (w : ConvVariant) (s : MatcherCacheState)
    (hw : MatcherCacheState.cache s w = none) :
    (generate_conv2d_pattern_matcher w s).1
      = MatcherCacheState.nextId s := by
  simp [generate_conv2d_pattern_matcher, hw]

/-- From any state respecting the identity invariant, invocations of two
distinct accessors return distinct objects. -/
theorem generate_distinct_of_inv (s : MatcherCacheState) (v w : ConvVariant)
    (hvw : v ≠ w) (h : matcherIdOk s) :
    (generate_conv2d_pattern_matcher v s).1
      ≠ (generate_conv2d_pattern_matcher w
          (generate_conv2d_pattern_matcher v s).2).1 := by
  have h1 : matcherIdOk (generate_conv2d_pattern_matcher v s).2 :=
    matcherIdOk_step v s h
  have hv := generate_cache_self v s
  cases hw : MatcherCacheState.cache (generate_conv2d_pattern_matcher v s).2 w with
  | some o =>
      rw [generate_fst_of_hit w _ o hw]
      exact h1.2 v w _ o hvw hv hw
  | none =>
      rw [generate_fst_of_miss w _ hw]
      have hlt := h1.1 v _ hv
      omega

/-- Claim C4: each cached accessor is a lazily-computed singleton — an
invocation after the first returns the identical object and leaves the whole
cache state untouched (a pure cache hit, no recomputation), and along any
sequence of invocations from process start the underlying construction runs
at most once per variant. -/
theorem generate_conv2d_pattern_matcher_memoized :
    (∀ (s : MatcherCacheState) (v : ConvVariant),
        generate_conv2d_pattern_matcher v
            (generate_conv2d_pattern_matcher v s).2
          = ((generate_conv2d_pattern_matcher v s).1,
             (generate_conv2d_pattern_matcher v s).2)) ∧
    (∀ (l : List ConvVariant) (v : ConvVariant),
        MatcherCacheState.constructions (runMatcherCalls l initMatcherState) v
          ≤ 1) := by
  constructor
  · intro s v
    cases hc : MatcherCacheState.cache s v with
    | some o => simp [generate_conv2d_pattern_matcher, hc]
    | none => simp [generate_conv2d_pattern_matcher, hc]
  · intro l v
    exact (matcherCountOk_run l initMatcherState matcherCountOk_init v).1

/-- Claim C5: after any sequence of accessor invocations from process start,
invoking two distinct accessors (different activation-function variants)
returns distinct objects. -/
theorem generate_conv2d_pattern_matcher_variants_distinct
    (l : List ConvVariant) (v w : ConvVariant) (h : v ≠ w) :
    (generate_conv2d_pattern_matcher v (runMatcherCalls l initMatcherState)).1
      ≠ (generate_conv2d_pattern_matcher w
          (generate_conv2d_pattern_matcher v
            (runMatcherCalls l initMatcherState)).2).1 :=
  generate_distinct_of_inv _ v w h
    (matcherIdOk_run l initMatcherState matcherIdOk_init)

/-- Witness for C5 at a concrete input: the relu accessor and the hardtanh
accessor, invoked from process start, return distinct objects. -/
theorem generate_conv2d_pattern_matcher_variants_distinct_witness :
    ConvVariant.relu ≠ ConvVariant.hardtanh ∧
    (generate_conv2d_pattern_matcher ConvVariant.relu
        (runMatcherCalls [] initMatcherState)).1
      ≠ (generate_conv2d_pattern_matcher ConvVariant.hardtanh
          (generate_conv2d_pattern_matcher ConvVariant.relu
            (runMatcherCalls [] initMatcherState)).2).1 :=
  ⟨by decide,
   generate_conv2d_pattern_matcher_variants_distinct []
     ConvVariant.relu ConvVariant.hardtanh (by decide)⟩

end QuantizerUtils
